import Mathlib

/-!
Verification of the homework/health-check scheduling core of the Refold
Helper Bot (`refold_helper_bot`).  The Python services are shallowly
embedded: dictionaries become association lists in insertion order,
`datetime` values become explicit civil records or integer minute counts,
and fallible operations return `Option`/`Except` or explicit result pairs.
Every definition mirrors one function of the source
(`services/homework_service.py`, `services/course_service.py`,
`services/thread_service.py`); external collaborators (pytz timezones,
the posting capability) are passed in as explicit function parameters.
-/

namespace RefoldBot

/-! ## Civil date-time values

Python `datetime` objects attached to a single fixed timezone compare
field-lexicographically.  The homework service stores `scheduled_datetime`
normalized to UTC, so a civil record with lexicographic order embeds it. -/

/-- A naive civil date-time at minute precision, as produced by
`datetime(year, month, day, hour, minute)` in the homework upload path. -/
structure PyDateTime where
  year : Nat
  month : Nat
  day : Nat
  hour : Nat
  minute : Nat
deriving DecidableEq, Repr

/-- Python's field-lexicographic comparison `a <= b` on two `datetime`
values carrying the same timezone. -/
def PyDateTime.leB (a b : PyDateTime) : Bool :=
  decide (a.year < b.year ∨ (a.year = b.year ∧
    (a.month < b.month ∨ (a.month = b.month ∧
      (a.day < b.day ∨ (a.day = b.day ∧
        (a.hour < b.hour ∨ (a.hour = b.hour ∧ a.minute ≤ b.minute))))))))

theorem PyDateTime.leB_trans (a b c : PyDateTime)
    (hab : PyDateTime.leB a b) (hbc : PyDateTime.leB b c) :
    PyDateTime.leB a c := by
  simp only [PyDateTime.leB, decide_eq_true_eq] at *
  omega

theorem PyDateTime.leB_total (a b : PyDateTime) :
    PyDateTime.leB a b || PyDateTime.leB b a := by
  simp only [PyDateTime.leB, Bool.or_eq_true, decide_eq_true_eq]
  omega

/-! ## Python string primitives (ASCII model)

The services use `str.strip`, `str.lower`, `str.isalnum`, `str.replace`,
`str.split` and `int(...)`.  They are modelled for ASCII text; this is the
alphabet all compared literals in the claims use. -/

/-- Python `str.strip()` (whitespace at both ends). -/
def pyStrip (s : String) : String :=
  String.mk (((s.data.dropWhile Char.isWhitespace).reverse.dropWhile
    Char.isWhitespace).reverse)

/-- Python `str.strip(c)` for a single character argument. -/
def pyStripChar (c : Char) (s : String) : String :=
  String.mk (((s.data.dropWhile (· == c)).reverse.dropWhile (· == c)).reverse)

/-- Python `str.lower()` (ASCII). -/
def pyLower (s : String) : String :=
  String.mk (s.data.map Char.toLower)

/-- Worker for `str.split(sep)` with a one-character separator. -/
def splitCharGo (sep : Char) : List Char → List (List Char)
  | [] => [[]]
  | c :: rest =>
    match splitCharGo sep rest with
    | [] => [[c]]
    | g :: gs => if c == sep then [] :: g :: gs else (c :: g) :: gs

/-- Python `s.split(sep)` for a one-character separator. -/
def pySplitChar (sep : Char) (s : String) : List String :=
  (splitCharGo sep s.data).map String.mk

/-- Digits-to-number accumulator for `int(...)`. -/
def natFromDigits (ds : List Char) : Nat :=
  ds.foldl (fun n c => n * 10 + (c.toNat - 48)) 0

/-- Python `int(s)` for base 10: optional sign and ASCII digits after
stripping surrounding whitespace; anything else raises `ValueError`,
modelled as `none`. -/
def pyParseInt (s : String) : Option Int :=
  let cs := (pyStrip s).data
  let signAndDigits : Int × List Char :=
    match cs with
    | '-' :: rest => (-1, rest)
    | '+' :: rest => (1, rest)
    | _ => (1, cs)
  if signAndDigits.2 ≠ [] ∧ signAndDigits.2.all Char.isDigit then
    some (signAndDigits.1 * (natFromDigits signAndDigits.2 : Int))
  else
    none

/-- Python `text.replace('\\n', '\n')` from the upload loop. -/
def replaceBackslashN : List Char → List Char
  | [] => []
  | '\\' :: 'n' :: rest => '\n' :: replaceBackslashN rest
  | c :: rest => c :: replaceBackslashN rest

/-- Left-pad a number with zeros, for `strftime` fields. -/
def padZero (width n : Nat) : String :=
  let s := toString n
  String.mk (List.replicate (width - s.length) '0') ++ s

/-- Gregorian leap-year test, as in Python's `calendar`/`datetime`. -/
def isLeapYear (y : Nat) : Bool :=
  y % 4 == 0 && (y % 100 != 0 || y % 400 == 0)

/-- Days in a month of a given year. -/
def daysInMonth (y m : Nat) : Nat :=
  if m = 2 then (if isLeapYear y then 29 else 28)
  else if m = 4 ∨ m = 6 ∨ m = 9 ∨ m = 11 then 30
  else 31

/-- Field ranges accepted by `datetime(year, month, day, hour, minute)`;
out-of-range fields raise `ValueError`. -/
def validDateTimeFields (y mo d h mi : Int) : Bool :=
  decide (1 ≤ y ∧ y ≤ 9999 ∧ 1 ≤ mo ∧ mo ≤ 12 ∧ 1 ≤ d ∧
    d ≤ (daysInMonth y.toNat mo.toNat : Int) ∧ 0 ≤ h ∧ h < 24 ∧ 0 ≤ mi ∧ mi < 60)

namespace HomeworkService

/-- `HomeworkAssignment` dataclass of `services/homework_service.py`.
`scheduled_datetime` is the stored UTC civil time. -/
structure HomeworkAssignment where
  homework_id : String
  course_name : String
  title : String
  content : String
  scheduled_datetime : PyDateTime
  course_day : Int
  status : String := "pending"
  posted_at : Option PyDateTime := none
  error_message : Option String := none
  forum_channel_id : Option Nat := none
  thread_id : Option Nat := none
deriving DecidableEq, Repr

/-- The service's in-memory store `self._assignments`: a Python dict from
assignment id to assignment, modelled as an association list in insertion
order (Python dicts preserve insertion order). -/
abbrev AssignmentMap := List (String × HomeworkAssignment)

/-- Keys of the dict. -/
def dictKeys (m : AssignmentMap) : List String := m.map Prod.fst

/-- `assignment_id in self._assignments` membership test. -/
def dictContains (m : AssignmentMap) (k : String) : Bool :=
  m.any (fun e => e.1 == k)

/-- `self._assignments[k]` lookup (first binding wins, as in a dict). -/
def dictGet (m : AssignmentMap) (k : String) : Option HomeworkAssignment :=
  (m.find? (fun e => e.1 == k)).map Prod.snd

/-- `self._assignments[k] = v`: replace the existing binding in place, or
append a new one, exactly as a Python dict update behaves. -/
def dictInsert (m : AssignmentMap) (k : String) (v : HomeworkAssignment) :
    AssignmentMap :=
  if dictContains m k then
    m.map (fun e => if e.1 == k then (e.1, v) else e)
  else
    m ++ [(k, v)]

/-- `self._assignments.values()` in insertion order. -/
def dictValues (m : AssignmentMap) : List HomeworkAssignment :=
  m.map Prod.snd

/-- Status of the assignment stored under `k`, if any. -/
def statusOf (m : AssignmentMap) (k : String) : Option String :=
  (dictGet m k).map (fun a => a.status)

/-- In-place mutation of the object stored under key `k`, as performed by
`assignment = self._assignments[id]; assignment.field = ...` in the
source: the entry keeps its key and position, its value is transformed. -/
def updateEntry (m : AssignmentMap) (k : String)
    (g : HomeworkAssignment → HomeworkAssignment) : AssignmentMap :=
  m.map (fun e => if e.1 == k then (e.1, g e.2) else e)

/-- The field assignments performed by `mark_assignment_posted` on the
looked-up object. -/
def postedUpdate (threadId : Nat) (now : PyDateTime)
    (a : HomeworkAssignment) : HomeworkAssignment :=
  { a with
      status := "posted"
      posted_at := some now
      thread_id := some threadId
      error_message := none }

/-- The field assignments performed by `mark_assignment_failed` on the
looked-up object. -/
def failedUpdate (errorMessage : String)
    (a : HomeworkAssignment) : HomeworkAssignment :=
  { a with
      status := "failed"
      error_message := some errorMessage }

/-- `HomeworkService.mark_assignment_posted`: if the id is present, set
`status = "posted"`, record `posted_at` and `thread_id`, clear
`error_message`, and return `true`; otherwise return `false` and leave the
store unchanged.  The source checks only membership, not the current
status. -/
def markAssignmentPosted (m : AssignmentMap) (assignmentId : String)
    (threadId : Nat) (now : PyDateTime) : AssignmentMap × Bool :=
  if dictContains m assignmentId then
    (updateEntry m assignmentId (postedUpdate threadId now), true)
  else
    (m, false)

/-- `HomeworkService.mark_assignment_failed`: if the id is present, set
`status = "failed"` and record `error_message`, returning `true`;
otherwise return `false`.  As in the source, the current status is not
inspected. -/
def markAssignmentFailed (m : AssignmentMap) (assignmentId : String)
    (errorMessage : String) : AssignmentMap × Bool :=
  if dictContains m assignmentId then
    (updateEntry m assignmentId (failedUpdate errorMessage), true)
  else
    (m, false)

/-- The due filter inlined in `HomeworkService._scheduler_loop`
(lines 369-372): pending assignments whose scheduled time is `<= now`,
taken in dict (insertion) order; the loop does not sort them. -/
def schedulerDueAssignments (m : AssignmentMap) (now : PyDateTime) :
    List HomeworkAssignment :=
  (dictValues m).filter
    (fun a => a.status == "pending" && PyDateTime.leB a.scheduled_datetime now)

/-- Comparison used by the Python `list.sort(key=lambda x: x.scheduled_datetime)`. -/
def scheduledLeB (a b : HomeworkAssignment) : Bool :=
  PyDateTime.leB a.scheduled_datetime b.scheduled_datetime

/-- `HomeworkService.get_overdue_assignments`: same pending-and-due filter,
then sorted ascending by scheduled time. -/
def getOverdueAssignments (m : AssignmentMap) (now : PyDateTime) :
    List HomeworkAssignment :=
  ((dictValues m).filter
    (fun a => a.status == "pending" && PyDateTime.leB a.scheduled_datetime now)).mergeSort
    scheduledLeB

/-! ### CSV upload (`upload_homework_schedule`)

The CSV is modelled after `csv.DictReader` has run: a list of rows with
the five required string fields.  The `pytz` Pacific-to-UTC conversion of
a naive local datetime is an external collaborator and is passed in as
the function `pacificToUtc`. -/

/-- One parsed CSV row of a homework schedule upload. -/
structure HwRow where
  title : String
  text : String
  post_date : String
  post_time : String
  course_day : String
deriving DecidableEq, Repr

/-- `HomeworkService._generate_assignment_id`: lower-cased course name,
sanitized title (alphanumerics, space, dash, underscore; stripped; spaces
to underscores; first 20 chars) and the UTC `strftime("%Y%m%d_%H%M")`
timestamp. -/
def generateAssignmentId (courseName title : String)
    (scheduledDatetime : PyDateTime) : String :=
  let timestamp := padZero 4 scheduledDatetime.year ++ padZero 2 scheduledDatetime.month ++
    padZero 2 scheduledDatetime.day ++ "_" ++ padZero 2 scheduledDatetime.hour ++
    padZero 2 scheduledDatetime.minute
  let cleanTitle := pyStrip (String.mk (title.data.filter
    (fun c => c.isAlphanum || c == ' ' || c == '-' || c == '_')))
  let cleanTitle := String.mk (((cleanTitle.data.map
    (fun c => if c == ' ' then '_' else c)).take 20))
  pyLower courseName ++ "_" ++ cleanTitle ++ "_" ++ timestamp

/-- Date/time parsing of one row: strict `YYYY-MM-DD` split on `-`, strict
`HH:MM` split on `:`, integer fields, then `datetime(...)` range checks.
The returned error text stands for the `ValueError` message (the exact
`int()`/`datetime()` messages are abbreviated; no claim depends on them). -/
def parseScheduledNaive (postDate postTime : String) : Sum String PyDateTime :=
  let dateParts := pySplitChar '-' postDate
  if dateParts.length ≠ 3 then .inl "Date must be in YYYY-MM-DD format"
  else
    match dateParts.map pyParseInt with
    | [some y, some mo, some d] =>
      let timeParts := pySplitChar ':' postTime
      if timeParts.length ≠ 2 then .inl "Time must be in HH:MM format"
      else
        match timeParts.map pyParseInt with
        | [some h, some mi] =>
          if validDateTimeFields y mo d h mi then
            .inr ⟨y.toNat, mo.toNat, d.toNat, h.toNat, mi.toNat⟩
          else .inl "invalid datetime field"
        | _ => .inl "invalid literal for int() with base 10"
    | _ => .inl "invalid literal for int() with base 10"

/-- The store-independent part of processing one upload row (everything in
the loop body of `upload_homework_schedule` before the duplicate check):
either a warning, or the fully built assignment. -/
def parseRowCore (pacificToUtc : PyDateTime → PyDateTime) (courseName : String)
    (forumChannelId : Nat) (rowNum : Nat) (row : HwRow) :
    Sum String HomeworkAssignment :=
  let title := pyStrip row.title
  let text := String.mk (replaceBackslashN (pyStrip row.text).data)
  let postDate := pyStrip row.post_date
  let postTime := pyStrip row.post_time
  let courseDayStr := pyStrip row.course_day
  if title = "" ∨ text = "" ∨ postDate = "" ∨ postTime = "" ∨ courseDayStr = "" then
    .inl ("Row " ++ toString rowNum ++ ": Missing required fields, skipping")
  else
    match pyParseInt courseDayStr with
    | none => .inl ("Row " ++ toString rowNum ++ ": Invalid course day '" ++
        courseDayStr ++ "', skipping")
    | some courseDay =>
      match parseScheduledNaive postDate postTime with
      | .inl err => .inl ("Row " ++ toString rowNum ++ ": Invalid date/time - " ++
          err ++ ", skipping")
      | .inr naive =>
        let scheduledUtc := pacificToUtc naive
        .inr { homework_id := generateAssignmentId courseName title scheduledUtc
               course_name := courseName
               title := title
               content := text
               scheduled_datetime := scheduledUtc
               course_day := courseDay
               forum_channel_id := some forumChannelId }

/-- One upload row against the current store: the duplicate check
(`assignment_id in self._assignments`) turns an otherwise valid row into a
skip-with-warning. -/
def processRow (pacificToUtc : PyDateTime → PyDateTime) (m : AssignmentMap)
    (courseName : String) (forumChannelId : Nat) (rowNum : Nat) (row : HwRow) :
    Sum String HomeworkAssignment :=
  match parseRowCore pacificToUtc courseName forumChannelId rowNum row with
  | .inl w => .inl w
  | .inr a =>
    if dictContains m a.homework_id then
      .inl ("Row " ++ toString rowNum ++ ": Assignment '" ++ a.title ++
        "' already exists, skipping")
    else .inr a

/-- The row loop of `upload_homework_schedule` (row numbers start at 2):
collected warnings and the `new_assignments` list.  As in the source, the
duplicate check consults only the pre-upload store, never the staged new
assignments. -/
def processRows (pacificToUtc : PyDateTime → PyDateTime) (m : AssignmentMap)
    (courseName : String) (forumChannelId : Nat) :
    Nat → List HwRow → List String × List HomeworkAssignment
  | _, [] => ([], [])
  | n, r :: rs =>
    let rest := processRows pacificToUtc m courseName forumChannelId (n + 1) rs
    match processRow pacificToUtc m courseName forumChannelId n r with
    | .inl w => (w :: rest.1, rest.2)
    | .inr a => (rest.1, a :: rest.2)

/-- Structured outcome of an upload, mirroring the
`(success, message, warnings)` tuple. -/
structure UploadOutcome where
  success : Bool
  message : String
  warnings : List String
deriving DecidableEq, Repr

/-- `HomeworkService.upload_homework_schedule` after header validation:
process all rows; with zero new assignments return failure and leave the
store untouched (no save); otherwise insert all new assignments and save.
The final `Bool` records whether `_save_homework_assignments` ran. -/
def uploadHomeworkSchedule (pacificToUtc : PyDateTime → PyDateTime)
    (m : AssignmentMap) (courseName : String) (rows : List HwRow)
    (forumChannelId : Nat) : UploadOutcome × AssignmentMap × Bool :=
  match processRows pacificToUtc m courseName forumChannelId 2 rows with
  | (warnings, []) =>
    ({ success := false
       message := "No valid homework assignments found in CSV"
       warnings := warnings }, m, false)
  | (warnings, a :: rest) =>
    ({ success := true
       message := "Successfully uploaded " ++ toString (a :: rest).length ++
         " homework assignments"
       warnings := warnings },
     (a :: rest).foldl (fun st x => dictInsert st x.homework_id x) m, true)

/-- Modelled from the spec (claim C8): the warning list a second identical
upload is expected to produce — one warning per row, a duplicate warning
for every row that parsed to an assignment.  Compared against
`uploadHomeworkSchedule`. -/
def specSecondUploadWarnings (pacificToUtc : PyDateTime → PyDateTime)
    (courseName : String) (forumChannelId : Nat) :
    Nat → List HwRow → List String
  | _, [] => []
  | n, r :: rs =>
    (match parseRowCore pacificToUtc courseName forumChannelId n r with
     | .inl w => w
     | .inr a => "Row " ++ toString n ++ ": Assignment '" ++ a.title ++
         "' already exists, skipping") ::
      specSecondUploadWarnings pacificToUtc courseName forumChannelId (n + 1) rs

/-! ### Scheduler loop (`_scheduler_loop`)

The posting capability (`_post_homework_assignment` up to its call of
`mark_assignment_posted`) is the injected collaborator: it either returns
the created thread id or raises, modelled as `Except String Nat`. -/

/-- Terminal status an assignment reaches from a posting outcome. -/
def postOutcomeStatus : Except String Nat → String
  | .ok _ => "posted"
  | .error _ => "failed"

/-- The store-entry transformation a posting outcome induces. -/
def dispatchUpdate (outcome : Except String Nat) (now : PyDateTime) :
    HomeworkAssignment → HomeworkAssignment :=
  match outcome with
  | .ok threadId => postedUpdate threadId now
  | .error msg => failedUpdate msg

/-- Invariant the service maintains on `self._assignments`: keys are
unique (a dict) and every assignment is stored under its own
`homework_id` (all writes use `self._assignments[a.homework_id] = a`). -/
def storeWellFormed (m : AssignmentMap) : Prop :=
  (m.map Prod.fst).Nodup ∧ ∀ e ∈ m, e.2.homework_id = e.1

instance (m : AssignmentMap) : Decidable (storeWellFormed m) := by
  unfold storeWellFormed; infer_instance

/-- Per-assignment dispatch in the loop body: posting success records the
thread id via `mark_assignment_posted`; an exception is caught and routed
to `mark_assignment_failed` with the exception's message. -/
def processDueAssignment (post : HomeworkAssignment → Except String Nat)
    (now : PyDateTime) (m : AssignmentMap) (a : HomeworkAssignment) :
    AssignmentMap :=
  match post a with
  | .ok threadId => (markAssignmentPosted m a.homework_id threadId now).1
  | .error msg => (markAssignmentFailed m a.homework_id msg).1

/-- One wake-up of the scheduler: compute the due list, then dispatch each
due assignment in order, the try/except around each keeping the loop going. -/
def schedulerPass (post : HomeworkAssignment → Except String Nat)
    (now : PyDateTime) (m : AssignmentMap) : AssignmentMap :=
  (schedulerDueAssignments m now).foldl (processDueAssignment post now) m

/-- What one iteration of the `while self._running` loop encounters:
a normal pass, an exception escaping the per-assignment handling (caught
by the loop-level `except Exception`, which sleeps and retries), or task
cancellation (`asyncio.CancelledError`, which breaks the loop). -/
inductive LoopEvent where
  | tick (post : HomeworkAssignment → Except String Nat) (now : PyDateTime)
  | bug (msg : String)
  | cancel

/-- The scheduler loop over a finite schedule of iteration events: final
store and the number of iterations completed before the loop exited. -/
def runSchedulerLoop : List LoopEvent → AssignmentMap → AssignmentMap × Nat
  | [], m => (m, 0)
  | .tick post now :: rest, m =>
    let out := runSchedulerLoop rest (schedulerPass post now m)
    (out.1, out.2 + 1)
  | .bug _ :: rest, m =>
    let out := runSchedulerLoop rest m
    (out.1, out.2 + 1)
  | .cancel :: _, m => (m, 0)

/-- An event is a cancellation. -/
def LoopEvent.isCancel : LoopEvent → Bool
  | .cancel => true
  | _ => false

end HomeworkService

namespace CourseService

/-- `StudentRecord` dataclass of `services/course_service.py` (the
constructor lower-cases and trims the handle; records here hold the
already-normalized values). -/
structure StudentRecord where
  email : String
  name : String
  discord_handle : String
  course_name : String
  enrolled_date : String := ""
  status : String := "pending"
  discord_id : Option Nat := none
deriving DecidableEq, Repr

/-- `StudentActivity` dataclass: per-student aggregates produced by the
health check.  Timestamps are UTC instants in minutes. -/
structure StudentActivity where
  student : StudentRecord
  total_messages : Nat
  messages_last_week : Nat
  last_message_date : Option Int := none
  member_since : Option Int := none
deriving DecidableEq, Repr

/-- `StudentActivity.activity_tier`: tier derived from the 7-day count. -/
def StudentActivity.activityTier (sa : StudentActivity) : String :=
  if sa.messages_last_week = 0 then "At Risk"
  else if sa.messages_last_week < 3 then "Low Activity"
  else "Active"

/-- `CourseService._normalize_course_name`: strip whitespace, strip double
and single quotes, strip again, lower-case. -/
def normalizeCourseName (name : String) : String :=
  pyLower (pyStrip (pyStripChar (Char.ofNat 39) (pyStripChar '"' (pyStrip name))))

/-- `CourseConfig` dataclass. -/
structure CourseConfig where
  name : String
  role_id : Int
  category_id : Int
  channels : List String := []
  welcome_message : String := ""
deriving DecidableEq, Repr

/-- `self._courses`: dict keyed by the normalized course name. -/
abbrev CourseMap := List (String × CourseConfig)

/-- `CourseService.get_course`: normalized lookup. -/
def getCourse (courses : CourseMap) (name : String) : Option CourseConfig :=
  (courses.find? (fun e => e.1 == normalizeCourseName name)).map Prod.snd

/-! ### Roster upload (`load_roster_from_text`) -/

/-- One roster CSV row after `csv.DictReader` (optional columns carry
their defaults). -/
structure RosterRow where
  email : String
  name : String
  discord_handle : String
  course_name : String
  enrolled_date : String := ""
  status : String := "pending"
deriving DecidableEq, Repr

/-- `StudentRecord(...)` construction for one row, including the
`__post_init__` handle normalization. -/
def mkStudentRecord (r : RosterRow) (courseName : String) : StudentRecord :=
  { email := pyStrip r.email
    name := pyStrip r.name
    discord_handle := pyStrip (pyLower (pyStrip r.discord_handle))
    course_name := courseName
    enrolled_date := pyStrip r.enrolled_date
    status := pyStrip r.status }

/-- The required-column emptiness check of one roster row.  The source
iterates over a Python set of column names, whose order is unspecified;
the check is modelled in a fixed order, which affects only which of
several simultaneously-empty fields is named in the message. -/
def rosterRowFieldCheck (rowNum : Nat) (r : RosterRow) : Option String :=
  if pyStrip r.email = "" then
    some ("Row " ++ toString rowNum ++ ": email cannot be empty")
  else if pyStrip r.name = "" then
    some ("Row " ++ toString rowNum ++ ": name cannot be empty")
  else if pyStrip r.discord_handle = "" then
    some ("Row " ++ toString rowNum ++ ": discord_handle cannot be empty")
  else if pyStrip r.course_name = "" then
    some ("Row " ++ toString rowNum ++ ": course_name cannot be empty")
  else none

/-- The row loop of `load_roster_from_text` (row numbers start at 2): the
first invalid row aborts the whole load with its error message; otherwise
all built student records are returned. -/
def loadRosterRows (courses : CourseMap) :
    Nat → List RosterRow → Sum String (List StudentRecord)
  | _, [] => .inr []
  | n, r :: rs =>
    match rosterRowFieldCheck n r with
    | some e => .inl e
    | none =>
      let courseName := pyStrip r.course_name
      if (getCourse courses courseName).isNone then
        .inl ("Row " ++ toString n ++ ": Course '" ++ courseName ++
          "' not configured. Use `!course add` to create it first.")
      else
        match loadRosterRows courses (n + 1) rs with
        | .inl e => .inl e
        | .inr ss => .inr (mkStudentRecord r courseName :: ss)

/-- `CourseService.load_roster_from_text`: on any row failure return
`(False, message)` and keep the previous in-memory roster; on success
replace the roster wholesale. -/
def loadRosterFromText (courses : CourseMap) (oldRoster : List StudentRecord)
    (rows : List RosterRow) : (Bool × String) × List StudentRecord :=
  match loadRosterRows courses 2 rows with
  | .inl e => ((false, e), oldRoster)
  | .inr ss =>
    ((true, "Loaded " ++ toString ss.length ++ " students from roster"), ss)

/-! ### Health-check time windows (`run_health_check`)

UTC instants are integers in minutes since the Unix epoch.  A pytz
timezone is modelled by two offset functions (minutes to add to UTC to
obtain local wall-clock time): `offsetAtUtc` selects the offset for an
instant (what `astimezone` uses) and `offsetAtLocal` the offset chosen
when a naive local time is localized.  pytz arithmetic on an aware
datetime keeps the fixed offset attached by the last `astimezone`/
`localize`; the embedding reproduces that. -/

/-- A named timezone as used through pytz. -/
structure TzModel where
  offsetAtUtc : Int → Int
  offsetAtLocal : Int → Int

/-- The recent-window boundary computed by `run_health_check` lines
433-443: `now_pacific - timedelta(days=7)`, `.replace(hour=0, ...)`,
`.astimezone(utc)`.  The subtraction and the midnight truncation happen on
the wall clock at the offset attached at `now`, and the final conversion
subtracts that same attached offset. -/
def healthCheckWeekStartUtc (tz : TzModel) (nowUtc : Int) : Int :=
  let nowLocal := nowUtc + tz.offsetAtUtc nowUtc
  let weekStartLocal := nowLocal - 7 * 1440
  let weekStartMidnight := (weekStartLocal / 1440) * 1440
  weekStartMidnight - tz.offsetAtUtc nowUtc

/-- The total-count boundary of lines 445-447: `now_pacific -
timedelta(days=30)` converted back to UTC (no midnight alignment). -/
def healthCheckMonthStartUtc (tz : TzModel) (nowUtc : Int) : Int :=
  (nowUtc + tz.offsetAtUtc nowUtc - 30 * 1440) - tz.offsetAtUtc nowUtc

/-- Line 529: an attributed, non-bot scanned message increments the
recent counter exactly when `message.created_at >= week_start_utc`. -/
def countsAsRecent (tz : TzModel) (nowUtc ts : Int) : Bool :=
  decide (healthCheckWeekStartUtc tz nowUtc ≤ ts)

/-- Modelled from the spec (claim C3): "local midnight in the reference
(Pacific) timezone of the day 7 days before now, converted to UTC" — the
midnight of that calendar day localized with the offset in effect *at that
local time*.  Compared against `healthCheckWeekStartUtc`. -/
def specWeekStartUtc (tz : TzModel) (nowUtc : Int) : Int :=
  let localDay := (nowUtc + tz.offsetAtUtc nowUtc) / 1440
  let midnightLocal := (localDay - 7) * 1440
  midnightLocal - tz.offsetAtLocal midnightLocal

/-- US/Pacific during 2025, from the tz database: PST (−480 minutes) until
2025-03-09 10:00 UTC, PDT (−420) until 2025-11-02 09:00 UTC, PST after.
Days are counted from the Unix epoch (1970-01-01 is day 0; 2025-03-09 is
day 20156 and 2025-11-02 is day 20394).  Ambiguous and nonexistent local
hours resolve as pytz `localize` does with `is_dst=False`.  The model is
accurate for 2025 instants, the only ones it is evaluated at. -/
def usPacific2025 : TzModel where
  offsetAtUtc i :=
    if i < 20156 * 1440 + 600 then -480
    else if i < 20394 * 1440 + 540 then -420
    else -480
  offsetAtLocal w :=
    if w < 20156 * 1440 + 180 then -480
    else if w < 20394 * 1440 + 60 then -420
    else -480

end CourseService

namespace ThreadService

/-- An aware datetime in one fixed-offset timezone, split into a day index
and the microsecond of day (`replace` zeroes seconds and microseconds, so
sub-minute precision matters for the `target_time <= now` comparison).
Day 0 of the model falls on a Monday, matching Python's
`weekday()` convention 0=Monday. -/
structure LocalDateTime where
  day : Int
  microOfDay : Int
deriving DecidableEq, Repr

/-- Comparison of two aware datetimes carrying the same offset: the wall
clocks compare lexicographically. -/
def LocalDateTime.leB (a b : LocalDateTime) : Bool :=
  decide (a.day < b.day ∨ (a.day = b.day ∧ a.microOfDay ≤ b.microOfDay))

/-- Strict version of `LocalDateTime.leB`. -/
def LocalDateTime.ltB (a b : LocalDateTime) : Bool :=
  decide (a.day < b.day ∨ (a.day = b.day ∧ a.microOfDay < b.microOfDay))

/-- `now.replace(hour=hour, minute=minute, second=0, microsecond=0)`. -/
def replaceTimeOfDay (now : LocalDateTime) (hour minute : Nat) : LocalDateTime :=
  ⟨now.day, ((hour * 60 + minute : Nat) : Int) * 60000000⟩

/-- `ThreadService.calculate_next_daily_occurrence` relative to an
explicit `now` in the target timezone: today's occurrence of
`hour:minute`, advanced one day when it is not strictly in the future. -/
def calculateNextDailyOccurrence (now : LocalDateTime) (hour minute : Nat) :
    LocalDateTime :=
  let targetTime := replaceTimeOfDay now hour minute
  if LocalDateTime.leB targetTime now then
    ⟨targetTime.day + 1, targetTime.microOfDay⟩
  else targetTime

/-- Python `datetime.weekday()` (0=Monday) under the day-0-is-Monday
convention of `LocalDateTime`. -/
def pyWeekday (d : LocalDateTime) : Int := d.day % 7

/-- `ThreadService.calculate_next_weekly_occurrence` relative to an
explicit `now`: `days_ahead = (day_of_week - now.weekday() + 7) % 7`,
bumped to a full 7 when today is the target weekday but the time of day
has already passed (or is exactly now). -/
def calculateNextWeeklyOccurrence (now : LocalDateTime) (hour minute : Nat)
    (dayOfWeek : Int) : LocalDateTime :=
  let targetTime := replaceTimeOfDay now hour minute
  let daysAhead := (dayOfWeek - pyWeekday now + 7) % 7
  let daysAhead :=
    if daysAhead = 0 ∧ LocalDateTime.leB targetTime now then 7 else daysAhead
  ⟨targetTime.day + daysAhead, targetTime.microOfDay⟩

end ThreadService

/-! ## Concrete instances used by witnesses and counterexamples -/

namespace HomeworkService

/-- A pending sample assignment. -/
def sampleAssignment (id title : String) (sched : PyDateTime) :
    HomeworkAssignment :=
  { homework_id := id
    course_name := "Spanish"
    title := title
    content := "do the exercise"
    scheduled_datetime := sched
    course_day := 1 }

/-- A one-assignment store. -/
def oneAssignmentStore : AssignmentMap :=
  [("hw1", sampleAssignment "hw1" "Day 1" ⟨2025, 1, 1, 9, 0⟩)]

/-- A store whose insertion order disagrees with scheduled-time order:
the later-scheduled assignment was inserted first. -/
def outOfOrderStore : AssignmentMap :=
  [("hw2", sampleAssignment "hw2" "Day 2" ⟨2025, 1, 2, 9, 0⟩),
   ("hw1", sampleAssignment "hw1" "Day 1" ⟨2025, 1, 1, 9, 0⟩)]

/-- An instant past both sample schedules. -/
def sampleNow : PyDateTime := ⟨2025, 1, 3, 0, 0⟩

/-- A poster that raises on `hw1` and succeeds (thread id 77) elsewhere. -/
def samplePoster (a : HomeworkAssignment) : Except String Nat :=
  if a.homework_id = "hw1" then .error "Forum channel 5 not found" else .ok 77

/-- Identity stand-in for the Pacific-to-UTC conversion in concrete runs
(the conversion's value is irrelevant to the properties evaluated). -/
def pacIdentity : PyDateTime → PyDateTime := fun d => d

/-- A row with an empty `title`, skipped by the upload loop. -/
def emptyTitleRow : HwRow :=
  { title := "", text := "x", post_date := "2025-01-01", post_time := "09:00",
    course_day := "1" }

/-- A well-formed upload row. -/
def validRow : HwRow :=
  { title := "Day 1", text := "hello", post_date := "2025-01-06",
    post_time := "09:00", course_day := "1" }

end HomeworkService

namespace CourseService

/-- A configured course. -/
def spanishConfig : CourseConfig :=
  { name := "Spanish", role_id := 1, category_id := 2 }

/-- A registry holding only Spanish (under its normalized key). -/
def sampleCourses : CourseMap := [("spanish", spanishConfig)]

/-- A roster row referencing the configured course. -/
def goodRosterRow : RosterRow :=
  { email := "ana@example.com", name := "Ana", discord_handle := "Ana#1234",
    course_name := "Spanish" }

/-- A roster row referencing an unconfigured course. -/
def badRosterRow : RosterRow :=
  { email := "ben@example.com", name := "Ben", discord_handle := "ben",
    course_name := "French" }

/-- A previously loaded roster. -/
def previousRoster : List StudentRecord :=
  [mkStudentRecord goodRosterRow "Spanish"]

/-- 2025-11-05 18:00 UTC (10:00 PST), one week after the 2025-11-02 DST
transition reached back over by the 7-day window. -/
def nowAfterFallBack : Int := 20397 * 1440 + 1080

/-- 2025-07-01 10:00 UTC, a DST-stable instant. -/
def nowMidSummer : Int := 20270 * 1440 + 600

end CourseService

/-! ## Theorems -/

namespace CourseService

/-- C5: the activity tier is a pure function of the recent (7-day) count
alone: recent 0 is "At Risk" whatever the total, recent 1 or 2 is
"Low Activity", recent at least 3 is "Active". -/
theorem activity_tier_pure_boundaries (sa : StudentActivity) :
    (sa.messages_last_week = 0 → sa.activityTier = "At Risk") ∧
    (0 < sa.messages_last_week → sa.messages_last_week < 3 →
      sa.activityTier = "Low Activity") ∧
    (3 ≤ sa.messages_last_week → sa.activityTier = "Active") ∧
    (∀ sb : StudentActivity,
      sa.messages_last_week = sb.messages_last_week →
      sa.activityTier = sb.activityTier) := by
  unfold StudentActivity.activityTier
  refine ⟨?_, ?_, ?_, ?_⟩
  · intro h
    rw [if_pos h]
  · intro h1 h2
    rw [if_neg (by omega), if_pos h2]
  · intro h3
    rw [if_neg (by omega), if_neg (by omega)]
  · intro sb h
    rw [h]

/-- C5 witness: recent 0 with total 50 is "At Risk"; recent 2 is
"Low Activity"; recent 3 is "Active". -/
theorem activity_tier_pure_boundaries_witness :
    ({ student := mkStudentRecord goodRosterRow "Spanish",
       total_messages := 50, messages_last_week := 0 } :
        StudentActivity).activityTier = "At Risk" ∧
    ({ student := mkStudentRecord goodRosterRow "Spanish",
       total_messages := 50, messages_last_week := 2 } :
        StudentActivity).activityTier = "Low Activity" ∧
    ({ student := mkStudentRecord goodRosterRow "Spanish",
       total_messages := 50, messages_last_week := 3 } :
        StudentActivity).activityTier = "Active" :=
  ⟨(activity_tier_pure_boundaries _).1 rfl,
   (activity_tier_pure_boundaries _).2.1 (by decide) (by decide),
   (activity_tier_pure_boundaries _).2.2.1 (by decide)⟩

/-- C3 (amended): the recent-window boundary is midnight of the Pacific
calendar day 7 days before now, but expressed at the UTC offset attached
at `now` (pytz fixed-offset arithmetic); it equals that day's true local
midnight converted to UTC exactly when the offset at `now` agrees with
the offset in effect at that midnight (no DST change in between).  A
scanned attributed message counts as recent iff its timestamp is at or
after this boundary; the total-count window is the rolling `now - 30`
days; and the boundary coincides with a rolling `now - 168h` only when
`now` is exactly a local midnight. -/
theorem health_check_week_boundary (tz : TzModel) (nowUtc ts : Int) :
    (countsAsRecent tz nowUtc ts = true ↔
      healthCheckWeekStartUtc tz nowUtc ≤ ts) ∧
    healthCheckMonthStartUtc tz nowUtc = nowUtc - 30 * 1440 ∧
    (tz.offsetAtUtc nowUtc =
        tz.offsetAtLocal ((((nowUtc + tz.offsetAtUtc nowUtc) / 1440) - 7) * 1440) →
      healthCheckWeekStartUtc tz nowUtc = specWeekStartUtc tz nowUtc) ∧
    (healthCheckWeekStartUtc tz nowUtc = nowUtc - 7 * 1440 ↔
      (nowUtc + tz.offsetAtUtc nowUtc) % 1440 = 0) := by
  refine ⟨?_, ?_, ?_, ?_⟩
  · simp [countsAsRecent]
  · unfold healthCheckMonthStartUtc
    ring
  · intro h
    simp only [healthCheckWeekStartUtc, specWeekStartUtc]
    rw [← h]
    generalize tz.offsetAtUtc nowUtc = o
    omega
  · simp only [healthCheckWeekStartUtc]
    generalize tz.offsetAtUtc nowUtc = o
    constructor
    · intro h
      omega
    · intro h
      omega

/-- C3 counterexample: one week after the 2025-11-02 US/Pacific
fall-back transition, the boundary computed by `run_health_check` is
2025-10-29 00:00 **PST** (08:00 UTC), not the claim's local midnight
2025-10-29 00:00 PDT (07:00 UTC); a message at 07:20 UTC that day lies at
or after the claimed boundary yet is not counted as recent. -/
theorem health_check_week_boundary_counterexample :
    healthCheckWeekStartUtc usPacific2025 nowAfterFallBack ≠
      specWeekStartUtc usPacific2025 nowAfterFallBack ∧
    specWeekStartUtc usPacific2025 nowAfterFallBack ≤ 20390 * 1440 + 440 ∧
    countsAsRecent usPacific2025 nowAfterFallBack (20390 * 1440 + 440) = false := by
  decide

/-- C3 witness: at a DST-stable instant the computed boundary is the true
Pacific local midnight converted to UTC. -/
theorem health_check_week_boundary_witness :
    healthCheckWeekStartUtc usPacific2025 nowMidSummer =
      specWeekStartUtc usPacific2025 nowMidSummer :=
  (health_check_week_boundary usPacific2025 nowMidSummer 0).2.2.1 (by decide)

end CourseService

namespace ThreadService

/-- C6: for valid hour/minute, `calculate_next_daily_occurrence` returns a
time strictly in the future of the `now` it was computed against: the
same-day occurrence when that is still strictly ahead, and that time
advanced one day when it has passed or is exactly now. -/
theorem next_daily_strictly_future (now : LocalDateTime) (hour minute : Nat)
    (hh : hour < 24) (hm : minute < 60) :
    LocalDateTime.ltB now (calculateNextDailyOccurrence now hour minute) = true ∧
    (LocalDateTime.leB (replaceTimeOfDay now hour minute) now = false →
      calculateNextDailyOccurrence now hour minute =
        replaceTimeOfDay now hour minute) ∧
    (LocalDateTime.leB (replaceTimeOfDay now hour minute) now = true →
      calculateNextDailyOccurrence now hour minute =
        ⟨now.day + 1, (replaceTimeOfDay now hour minute).microOfDay⟩) := by
  refine ⟨?_, ?_, ?_⟩
  · simp only [calculateNextDailyOccurrence]
    split
    · rename_i h
      simp only [LocalDateTime.leB, decide_eq_true_eq, replaceTimeOfDay] at h
      simp only [LocalDateTime.ltB, decide_eq_true_eq, replaceTimeOfDay]
      simp only [lt_self_iff_false, false_or, true_and] at h ⊢
      omega
    · rename_i h
      simp only [LocalDateTime.leB, decide_eq_true_eq, replaceTimeOfDay] at h
      simp only [LocalDateTime.ltB, decide_eq_true_eq, replaceTimeOfDay]
      simp only [lt_self_iff_false, false_or, true_and] at h ⊢
      omega
  · intro h
    simp only [calculateNextDailyOccurrence]
    rw [if_neg (by simp [h])]
  · intro h
    simp only [calculateNextDailyOccurrence]
    rw [if_pos h]
    rfl

/-- C6 witness at 2025-style concrete values: now 01:00 on day 700,
target 09:30 the same day. -/
theorem next_daily_strictly_future_witness :
    LocalDateTime.ltB ⟨700, 3600000000⟩
      (calculateNextDailyOccurrence ⟨700, 3600000000⟩ 9 30) = true :=
  (next_daily_strictly_future ⟨700, 3600000000⟩ 9 30 (by decide) (by decide)).1

/-- C7: when today is the target weekday and the time of day has passed
(or is exactly now), `calculate_next_weekly_occurrence` advances a full 7
days from the naive same-day occurrence, never 0; otherwise it returns
the next calendar occurrence of that weekday at the requested time (the
unique such day within the coming week). -/
theorem next_weekly_full_week (now : LocalDateTime) (hour minute : Nat)
    (dow : Int) (h0 : 0 ≤ dow) (h7 : dow < 7) :
    (pyWeekday now = dow →
      LocalDateTime.leB (replaceTimeOfDay now hour minute) now = true →
      calculateNextWeeklyOccurrence now hour minute dow =
        ⟨(replaceTimeOfDay now hour minute).day + 7,
         (replaceTimeOfDay now hour minute).microOfDay⟩) ∧
    (¬(pyWeekday now = dow ∧
        LocalDateTime.leB (replaceTimeOfDay now hour minute) now = true) →
      (calculateNextWeeklyOccurrence now hour minute dow).day % 7 = dow ∧
      now.day ≤ (calculateNextWeeklyOccurrence now hour minute dow).day ∧
      (calculateNextWeeklyOccurrence now hour minute dow).day < now.day + 7 ∧
      (calculateNextWeeklyOccurrence now hour minute dow).microOfDay =
        (replaceTimeOfDay now hour minute).microOfDay) := by
  constructor
  · intro h1 h2
    have hd : (dow - pyWeekday now + 7) % 7 = 0 := by
      unfold pyWeekday at h1 ⊢
      omega
    simp only [calculateNextWeeklyOccurrence]
    rw [if_pos ⟨hd, h2⟩]
  · intro h
    simp only [calculateNextWeeklyOccurrence]
    by_cases hz : (dow - pyWeekday now + 7) % 7 = 0
    · have heq : pyWeekday now = dow := by
        unfold pyWeekday at hz ⊢
        omega
      rw [if_neg (fun hc => h ⟨heq, hc.2⟩)]
      simp only [replaceTimeOfDay, pyWeekday, true_and, and_true] at hz heq ⊢
      omega
    · rw [if_neg (fun hc => hz hc.1)]
      simp only [replaceTimeOfDay, pyWeekday, true_and, and_true] at hz ⊢
      omega

/-- C7 witness: day 702 is a Wednesday (weekday 2); at 13:53 the 09:30
target has passed, and the result is exactly 7 days after the naive
same-day occurrence. -/
theorem next_weekly_full_week_witness :
    calculateNextWeeklyOccurrence ⟨702, 50000000000⟩ 9 30 2 =
      ⟨709, 34200000000⟩ :=
  (next_weekly_full_week ⟨702, 50000000000⟩ 9 30 2 (by decide) (by decide)).1
    (by decide) (by decide)

end ThreadService

namespace HomeworkService

/-! ### Dictionary lemmas -/

theorem dictGet_cons (e : String × HomeworkAssignment) (t : AssignmentMap)
    (k : String) :
    dictGet (e :: t) k = if e.1 = k then some e.2 else dictGet t k := by
  unfold dictGet
  by_cases h : e.1 = k
  · rw [List.find?_cons_of_pos _ (by simp [h]), if_pos h]
    rfl
  · rw [List.find?_cons_of_neg _ (by simp [h]), if_neg h]

theorem dictContains_cons (e : String × HomeworkAssignment) (t : AssignmentMap)
    (k : String) :
    dictContains (e :: t) k = ((e.1 = k) || dictContains t k) := by
  unfold dictContains
  rw [List.any_cons]
  by_cases h : e.1 = k <;> simp [h]

theorem dictContains_eq_isSome (m : AssignmentMap) (k : String) :
    dictContains m k = (dictGet m k).isSome := by
  induction m with
  | nil => rfl
  | cons e t ih =>
    rw [dictGet_cons, dictContains_cons, ih]
    by_cases h : e.1 = k <;> simp [h]

theorem updateEntry_cons (e : String × HomeworkAssignment) (t : AssignmentMap)
    (k : String) (g : HomeworkAssignment → HomeworkAssignment) :
    updateEntry (e :: t) k g =
      (if e.1 = k then (e.1, g e.2) else e) :: updateEntry t k g := by
  unfold updateEntry
  rw [List.map_cons]
  by_cases h : e.1 = k <;> simp [h]

theorem updateEntry_keys (m : AssignmentMap) (k : String)
    (g : HomeworkAssignment → HomeworkAssignment) :
    (updateEntry m k g).map Prod.fst = m.map Prod.fst := by
  unfold updateEntry
  rw [List.map_map]
  apply List.map_congr_left
  intro e _
  by_cases h : e.1 = k <;> simp [h]

theorem dictContains_eq_keys (m : AssignmentMap) (k : String) :
    dictContains m k = (m.map Prod.fst).any (fun s => s == k) := by
  induction m with
  | nil => rfl
  | cons e t ih =>
    unfold dictContains at *
    simp only [List.map_cons, List.any_cons]
    rw [ih]

theorem dictContains_updateEntry (m : AssignmentMap) (k : String)
    (g : HomeworkAssignment → HomeworkAssignment) (q : String) :
    dictContains (updateEntry m k g) q = dictContains m q := by
  rw [dictContains_eq_keys, dictContains_eq_keys, updateEntry_keys]

theorem dictGet_updateEntry (m : AssignmentMap) (k : String)
    (g : HomeworkAssignment → HomeworkAssignment) (q : String) :
    dictGet (updateEntry m k g) q =
      if q = k then (dictGet m k).map g else dictGet m q := by
  induction m with
  | nil =>
    by_cases hq : q = k <;> simp [updateEntry, dictGet, hq]
  | cons e t ih =>
    rw [updateEntry_cons]
    by_cases hek : e.1 = k
    · by_cases hq : q = k
      · simp [dictGet_cons, hek, hq]
      · simp [dictGet_cons, hek, hq, ih, Ne.symm hq]
    · by_cases hq : q = k
      · subst hq
        simp [dictGet_cons, hek, ih]
      · simp [dictGet_cons, hek, hq, ih]

/-! ### C1 -/

/-- C1 (amended): `mark_assignment_posted` and `mark_assignment_failed`
return `false` (leaving the store unchanged) only for an unknown id; for
any stored assignment they set the status unconditionally — the current
status is never consulted — so posted/failed are not terminal at the
store level, and `mark_posted` followed by `mark_failed` on the same id
returns `true` for the second call and leaves the status "failed". -/
theorem mark_ops_overwrite_terminal_status (m : AssignmentMap) (id : String)
    (tid : Nat) (now : PyDateTime) (msg : String) :
    (dictContains m id = false →
      markAssignmentPosted m id tid now = (m, false) ∧
      markAssignmentFailed m id msg = (m, false)) ∧
    (dictContains m id = true →
      (markAssignmentFailed (markAssignmentPosted m id tid now).1 id msg).2 =
        true ∧
      statusOf (markAssignmentFailed
        (markAssignmentPosted m id tid now).1 id msg).1 id = some "failed") := by
  constructor
  · intro h
    constructor
    · unfold markAssignmentPosted
      rw [if_neg (by simp [h])]
    · unfold markAssignmentFailed
      rw [if_neg (by simp [h])]
  · intro h
    have h1 : (markAssignmentPosted m id tid now).1 =
        updateEntry m id (postedUpdate tid now) := by
      unfold markAssignmentPosted
      rw [if_pos h]
    have h2 : dictContains (markAssignmentPosted m id tid now).1 id = true := by
      rw [h1, dictContains_updateEntry]
      exact h
    constructor
    · unfold markAssignmentFailed
      rw [if_pos h2]
    · have h3 : (markAssignmentFailed (markAssignmentPosted m id tid now).1
          id msg).1 =
          updateEntry (markAssignmentPosted m id tid now).1 id
            (failedUpdate msg) := by
        unfold markAssignmentFailed
        rw [if_pos h2]
      rw [h3, h1]
      unfold statusOf
      rw [dictGet_updateEntry, if_pos rfl, dictGet_updateEntry, if_pos rfl]
      have h4 : (dictGet m id).isSome := by
        rw [← dictContains_eq_isSome]
        exact h
      rcases Option.isSome_iff_exists.mp h4 with ⟨a, ha⟩
      rw [ha]
      rfl

/-- C1 counterexample: on a store holding one pending assignment `hw1`,
`mark_posted` then `mark_failed` leaves the status "failed" — the second
call is not a no-op and the status does not remain "posted". -/
theorem mark_failed_after_posted_counterexample :
    statusOf (markAssignmentFailed
        (markAssignmentPosted oneAssignmentStore "hw1" 42 sampleNow).1
        "hw1" "boom").1 "hw1" = some "failed" ∧
    statusOf (markAssignmentFailed
        (markAssignmentPosted oneAssignmentStore "hw1" 42 sampleNow).1
        "hw1" "boom").1 "hw1" ≠ some "posted" := by
  decide

/-- C1 witness: the amended behaviour evaluated on the one-assignment
store. -/
theorem mark_ops_overwrite_terminal_status_witness :
    statusOf (markAssignmentFailed
        (markAssignmentPosted oneAssignmentStore "hw1" 42 sampleNow).1
        "hw1" "late failure").1 "hw1" = some "failed" :=
  ((mark_ops_overwrite_terminal_status oneAssignmentStore "hw1" 42 sampleNow
    "late failure").2 (by decide)).2

/-! ### C2 -/

/-- C2 (amended): both due computations select exactly the pending
assignments whose scheduled UTC time is `<= now` (an assignment with
status "posted" is never returned by either); `get_overdue_assignments`
returns them sorted non-decreasingly by scheduled time, while the
scheduler loop's inlined computation returns them in store insertion
order, which need not be sorted. -/
theorem due_assignments_characterization (m : AssignmentMap)
    (now : PyDateTime) :
    (∀ a, a ∈ schedulerDueAssignments m now ↔
      (a ∈ dictValues m ∧ a.status = "pending" ∧
        PyDateTime.leB a.scheduled_datetime now = true)) ∧
    (getOverdueAssignments m now).Perm (schedulerDueAssignments m now) ∧
    (getOverdueAssignments m now).Pairwise
      (fun a b => scheduledLeB a b = true) ∧
    (∀ a ∈ schedulerDueAssignments m now, a.status ≠ "posted") ∧
    (∀ a ∈ getOverdueAssignments m now, a.status ≠ "posted") := by
  have hmem : ∀ a, a ∈ schedulerDueAssignments m now ↔
      (a ∈ dictValues m ∧ a.status = "pending" ∧
        PyDateTime.leB a.scheduled_datetime now = true) := by
    intro a
    unfold schedulerDueAssignments
    rw [List.mem_filter]
    simp [Bool.and_eq_true]
  refine ⟨hmem, ?_, ?_, ?_, ?_⟩
  · exact List.mergeSort_perm _ _
  · have htrans : ∀ a b c : HomeworkAssignment,
        scheduledLeB a b → scheduledLeB b c → scheduledLeB a c :=
      fun a b c hab hbc => PyDateTime.leB_trans _ _ _ hab hbc
    have htotal : ∀ a b : HomeworkAssignment,
        scheduledLeB a b || scheduledLeB b a :=
      fun a b => PyDateTime.leB_total _ _
    exact List.sorted_mergeSort htrans htotal _
  · intro a ha
    rw [(hmem a).1 ha |>.2.1]
    decide
  · intro a ha
    have hp : a ∈ schedulerDueAssignments m now :=
      (List.Perm.mem_iff (List.mergeSort_perm _ _)).mp ha
    rw [(hmem a).1 hp |>.2.1]
    decide

/-- C2 counterexample: with the later-scheduled assignment inserted
first, the scheduler loop's due list is not in non-decreasing
scheduled-time order. -/
theorem scheduler_due_not_sorted_counterexample :
    ¬ (schedulerDueAssignments outOfOrderStore sampleNow).Pairwise
        (fun a b => scheduledLeB a b = true) := by
  decide

/-- C2 witness: a due pending assignment is selected by the scheduler's
due computation. -/
theorem due_assignments_characterization_witness :
    sampleAssignment "hw1" "Day 1" ⟨2025, 1, 1, 9, 0⟩ ∈
      schedulerDueAssignments outOfOrderStore sampleNow :=
  ((due_assignments_characterization outOfOrderStore sampleNow).1 _).mpr
    (by decide)

/-! ### C4 -/

theorem dictContains_of_mem (m : AssignmentMap) (e : String × HomeworkAssignment)
    (he : e ∈ m) : dictContains m e.1 = true := by
  unfold dictContains
  rw [List.any_eq_true]
  exact ⟨e, he, by simp⟩

theorem processDue_eq (post : HomeworkAssignment → Except String Nat)
    (now : PyDateTime) (m : AssignmentMap) (a : HomeworkAssignment)
    (h : dictContains m a.homework_id = true) :
    processDueAssignment post now m a =
      updateEntry m a.homework_id (dispatchUpdate (post a) now) := by
  unfold processDueAssignment dispatchUpdate markAssignmentPosted
    markAssignmentFailed
  cases post a <;> simp [h]

theorem processDue_contains (post : HomeworkAssignment → Except String Nat)
    (now : PyDateTime) (m : AssignmentMap) (a : HomeworkAssignment)
    (k : String) :
    dictContains (processDueAssignment post now m a) k = dictContains m k := by
  unfold processDueAssignment markAssignmentPosted markAssignmentFailed
  cases post a <;> by_cases h : dictContains m a.homework_id <;>
    simp [h, dictContains_updateEntry]

theorem processDue_get_other (post : HomeworkAssignment → Except String Nat)
    (now : PyDateTime) (m : AssignmentMap) (a : HomeworkAssignment)
    (k : String) (hne : k ≠ a.homework_id) :
    dictGet (processDueAssignment post now m a) k = dictGet m k := by
  unfold processDueAssignment markAssignmentPosted markAssignmentFailed
  cases post a <;> by_cases h : dictContains m a.homework_id <;>
    simp [h, dictGet_updateEntry, hne]

theorem foldl_processDue_get_other (post : HomeworkAssignment → Except String Nat)
    (now : PyDateTime) (l : List HomeworkAssignment) :
    ∀ (m : AssignmentMap) (k : String), (∀ c ∈ l, c.homework_id ≠ k) →
    dictGet (l.foldl (processDueAssignment post now) m) k = dictGet m k := by
  induction l with
  | nil => intro m k _; rfl
  | cons c t ih =>
    intro m k h
    rw [List.foldl_cons,
      ih _ k (fun x hx => h x (List.mem_cons_of_mem _ hx)),
      processDue_get_other post now m c k
        (fun hc => h c (List.mem_cons_self c t) hc.symm)]

theorem foldl_processDue_get (post : HomeworkAssignment → Except String Nat)
    (now : PyDateTime) (l : List HomeworkAssignment) :
    ∀ (m : AssignmentMap),
      (l.map (fun a => a.homework_id)).Nodup →
      (∀ a ∈ l, dictContains m a.homework_id = true) →
      ∀ a ∈ l,
        dictGet (l.foldl (processDueAssignment post now) m) a.homework_id =
          (dictGet m a.homework_id).map (dispatchUpdate (post a) now) := by
  induction l with
  | nil =>
    intro m _ _ a ha
    cases ha
  | cons c t ih =>
    intro m hnd hcont a ha
    have hnd' : (t.map (fun a => a.homework_id)).Nodup :=
      (List.nodup_cons.mp (by simpa using hnd)).2
    have hnotin : c.homework_id ∉ t.map (fun a => a.homework_id) :=
      (List.nodup_cons.mp (by simpa using hnd)).1
    rw [List.foldl_cons]
    rcases List.mem_cons.mp ha with rfl | hat
    · rw [foldl_processDue_get_other post now t _ a.homework_id
        (fun x hx hc => hnotin (hc ▸ List.mem_map_of_mem _ hx)),
        processDue_eq post now m a (hcont a (List.mem_cons_self a t)),
        dictGet_updateEntry, if_pos rfl]
    · have hane : a.homework_id ≠ c.homework_id := by
        intro hc
        exact hnotin (hc ▸ List.mem_map_of_mem _ hat)
      rw [ih (processDueAssignment post now m c) hnd'
        (fun x hx => (processDue_contains post now m c _).trans
          (hcont x (List.mem_cons_of_mem _ hx))) a hat,
        processDue_get_other post now m c a.homework_id hane]

/-- C4: every due assignment of a scheduler pass ends the pass in the
terminal state matching its own posting outcome — a raising poster marks
exactly that assignment "failed" with the exception's message and the
later due assignments are still dispatched — and the loop runs one
iteration per wake-up, exiting only on cancellation: neither a posting
failure nor an exception escaping the per-assignment handling terminates
it. -/
theorem scheduler_loop_isolates_failures :
    (∀ (post : HomeworkAssignment → Except String Nat) (now : PyDateTime)
        (m : AssignmentMap), storeWellFormed m →
      ∀ a ∈ schedulerDueAssignments m now,
        statusOf (schedulerPass post now m) a.homework_id =
          some (postOutcomeStatus (post a)) ∧
        ∀ msg, post a = .error msg →
          (dictGet (schedulerPass post now m) a.homework_id).map
            (fun x => x.error_message) = some (some msg)) ∧
    (∀ (events : List LoopEvent) (m : AssignmentMap),
      (∀ e ∈ events, e.isCancel = false) →
      (runSchedulerLoop events m).2 = events.length) := by
  constructor
  · intro post now m hwf a ha
    have hvalkeys : (dictValues m).map (fun a => a.homework_id) =
        m.map Prod.fst := by
      unfold dictValues
      rw [List.map_map]
      exact List.map_congr_left (fun e he => hwf.2 e he)
    have hduesub : (schedulerDueAssignments m now).Sublist (dictValues m) :=
      List.filter_sublist _
    have hnodup : ((schedulerDueAssignments m now).map
        (fun a => a.homework_id)).Nodup := by
      apply List.Sublist.nodup (List.Sublist.map _ hduesub)
      rw [hvalkeys]
      exact hwf.1
    have hcont : ∀ x ∈ schedulerDueAssignments m now,
        dictContains m x.homework_id = true := by
      intro x hx
      have hxv : x ∈ dictValues m := hduesub.mem hx
      rcases List.mem_map.mp hxv with ⟨e, he, rfl⟩
      rw [hwf.2 e he]
      exact dictContains_of_mem m e he
    have hget := foldl_processDue_get post now (schedulerDueAssignments m now)
      m hnodup hcont a ha
    have hsome : (dictGet m a.homework_id).isSome := by
      rw [← dictContains_eq_isSome]
      exact hcont a ha
    rcases Option.isSome_iff_exists.mp hsome with ⟨x, hx⟩
    have hpass : schedulerPass post now m =
        (schedulerDueAssignments m now).foldl (processDueAssignment post now) m :=
      rfl
    constructor
    · rw [statusOf, hpass, hget, hx]
      cases post a <;> rfl
    · intro msg hmsg
      rw [hpass, hget, hx, hmsg]
      rfl
  · intro events
    induction events with
    | nil => intro m _; rfl
    | cons e t ih =>
      intro m h
      cases e with
      | tick post now =>
        simp only [runSchedulerLoop, List.length_cons]
        rw [ih _ (fun x hx => h x (List.mem_cons_of_mem _ hx))]
      | bug msg =>
        simp only [runSchedulerLoop, List.length_cons]
        rw [ih _ (fun x hx => h x (List.mem_cons_of_mem _ hx))]
      | cancel =>
        have := h _ (List.mem_cons_self _ t)
        simp [LoopEvent.isCancel] at this

/-- C4 witness: with a poster that raises on `hw1` and succeeds on `hw2`,
one pass marks `hw1` failed (and the batch completes), and a loop seeing a
loop-level exception then a normal tick completes both iterations. -/
theorem scheduler_loop_isolates_failures_witness :
    statusOf (schedulerPass samplePoster sampleNow outOfOrderStore) "hw1" =
      some "failed" ∧
    statusOf (schedulerPass samplePoster sampleNow outOfOrderStore) "hw2" =
      some "posted" ∧
    (runSchedulerLoop [LoopEvent.bug "oops",
      LoopEvent.tick samplePoster sampleNow] outOfOrderStore).2 = 2 := by
  refine ⟨?_, ?_, ?_⟩
  · have h := ((scheduler_loop_isolates_failures).1 samplePoster sampleNow
      outOfOrderStore (by decide)
      (sampleAssignment "hw1" "Day 1" ⟨2025, 1, 1, 9, 0⟩) (by decide)).1
    exact h.trans (by decide)
  · have h := ((scheduler_loop_isolates_failures).1 samplePoster sampleNow
      outOfOrderStore (by decide)
      (sampleAssignment "hw2" "Day 2" ⟨2025, 1, 2, 9, 0⟩) (by decide)).1
    exact h.trans (by decide)
  · exact (scheduler_loop_isolates_failures).2 _ _ (by decide)

/-! ### C8 and C10 -/

theorem dictInsert_eq (m : AssignmentMap) (k : String) (v : HomeworkAssignment) :
    dictInsert m k v =
      if dictContains m k then updateEntry m k (fun _ => v) else m ++ [(k, v)] :=
  rfl

theorem dictContains_dictInsert_mono (m : AssignmentMap) (k q : String)
    (v : HomeworkAssignment) (h : dictContains m q = true) :
    dictContains (dictInsert m k v) q = true := by
  rw [dictInsert_eq]
  by_cases hk : dictContains m k
  · rw [if_pos hk, dictContains_updateEntry]
    exact h
  · rw [if_neg hk]
    unfold dictContains at h ⊢
    rw [List.any_append]
    simp [h]

theorem dictContains_dictInsert_self (m : AssignmentMap) (k : String)
    (v : HomeworkAssignment) :
    dictContains (dictInsert m k v) k = true := by
  rw [dictInsert_eq]
  by_cases hk : dictContains m k
  · rw [if_pos hk, dictContains_updateEntry]
    exact hk
  · rw [if_neg hk]
    unfold dictContains
    rw [List.any_append]
    simp

theorem foldl_insert_contains_mono (l : List HomeworkAssignment) :
    ∀ (m : AssignmentMap) (k : String), dictContains m k = true →
      dictContains (l.foldl (fun st x => dictInsert st x.homework_id x) m) k =
        true := by
  induction l with
  | nil => intro m k h; exact h
  | cons c t ih =>
    intro m k h
    rw [List.foldl_cons]
    exact ih _ k (dictContains_dictInsert_mono m _ k c h)

theorem foldl_insert_contains_mem (l : List HomeworkAssignment) :
    ∀ (m : AssignmentMap) (a : HomeworkAssignment), a ∈ l →
      dictContains (l.foldl (fun st x => dictInsert st x.homework_id x) m)
        a.homework_id = true := by
  induction l with
  | nil => intro m a ha; cases ha
  | cons c t ih =>
    intro m a ha
    rw [List.foldl_cons]
    rcases List.mem_cons.mp ha with rfl | hat
    · exact foldl_insert_contains_mono t _ _
        (dictContains_dictInsert_self m a.homework_id a)
    · exact ih _ a hat

theorem processRows_news_tail (pac : PyDateTime → PyDateTime)
    (m : AssignmentMap) (course : String) (chan : Nat) (n : Nat) (r : HwRow)
    (rs : List HwRow) (a : HomeworkAssignment)
    (ha : a ∈ (processRows pac m course chan (n + 1) rs).2) :
    a ∈ (processRows pac m course chan n (r :: rs)).2 := by
  simp only [processRows]
  cases h : processRow pac m course chan n r <;> simp [ha]

/-- Core of C8: against a store `m₁` that contains every key of `m` and
the id of every assignment the first run produced from these rows, the
row loop skips every row — the warning list is the predicted one and no
assignment is created. -/
theorem processRows_all_skip (pac : PyDateTime → PyDateTime) (course : String)
    (chan : Nat) :
    ∀ (rows : List HwRow) (n : Nat) (m m₁ : AssignmentMap),
      (∀ k, dictContains m k = true → dictContains m₁ k = true) →
      (∀ a ∈ (processRows pac m course chan n rows).2,
        dictContains m₁ a.homework_id = true) →
      processRows pac m₁ course chan n rows =
        (specSecondUploadWarnings pac course chan n rows, []) := by
  intro rows
  induction rows with
  | nil => intro n m m₁ _ _; rfl
  | cons r rs ih =>
    intro n m m₁ hmono hnews
    have hnewstail : ∀ a ∈ (processRows pac m course chan (n + 1) rs).2,
        dictContains m₁ a.homework_id = true :=
      fun a ha => hnews a (processRows_news_tail pac m course chan n r rs a ha)
    have hrest := ih (n + 1) m m₁ hmono hnewstail
    cases hpc : parseRowCore pac course chan n r with
    | inl w =>
      have h2 : processRow pac m₁ course chan n r = .inl w := by
        unfold processRow
        rw [hpc]
      simp only [processRows, specSecondUploadWarnings, h2, hpc, hrest]
    | inr a =>
      have hcontm₁ : dictContains m₁ a.homework_id = true := by
        by_cases hdup : dictContains m a.homework_id = true
        · exact hmono _ hdup
        · apply hnews
          have h1 : processRow pac m course chan n r = .inr a := by
            unfold processRow
            rw [hpc]
            simp [hdup]
          simp only [processRows, h1]
          exact List.mem_cons_self _ _
      have h2 : processRow pac m₁ course chan n r =
          .inl ("Row " ++ toString n ++ ": Assignment '" ++ a.title ++
            "' already exists, skipping") := by
        unfold processRow
        rw [hpc]
        simp [hcontm₁]
      simp only [processRows, specSecondUploadWarnings, h2, hpc, hrest]

theorem specSecondUploadWarnings_length (pac : PyDateTime → PyDateTime)
    (course : String) (chan : Nat) :
    ∀ (n : Nat) (rows : List HwRow),
      (specSecondUploadWarnings pac course chan n rows).length = rows.length := by
  intro n rows
  induction rows generalizing n with
  | nil => rfl
  | cons r rs ih =>
    simp only [specSecondUploadWarnings, List.length_cons, ih]

/-- C10: when the row loop produces zero new assignments (every row was
skipped as malformed, invalid, or duplicate), the upload returns failure
with message "No valid homework assignments found in CSV" and the
collected warnings, the store is returned unchanged, and no save is
performed. -/
theorem upload_no_valid_rows (pac : PyDateTime → PyDateTime)
    (m : AssignmentMap) (course : String) (rows : List HwRow) (chan : Nat)
    (h : (processRows pac m course chan 2 rows).2 = []) :
    uploadHomeworkSchedule pac m course rows chan =
      ({ success := false
         message := "No valid homework assignments found in CSV"
         warnings := (processRows pac m course chan 2 rows).1 }, m, false) := by
  rcases hrows : processRows pac m course chan 2 rows with ⟨ws, news⟩
  rw [hrows] at h
  subst h
  unfold uploadHomeworkSchedule
  rw [hrows]

/-- C10 witness: a batch whose single row has an empty title is entirely
skipped; the upload fails with the fixed message, one warning, no store
change and no save. -/
theorem upload_no_valid_rows_witness :
    uploadHomeworkSchedule pacIdentity [] "Spanish" [emptyTitleRow] 5 =
      ({ success := false
         message := "No valid homework assignments found in CSV"
         warnings := ["Row 2: Missing required fields, skipping"] }, [], false) :=
  (upload_no_valid_rows pacIdentity [] "Spanish" [emptyTitleRow] 5
    (by decide)).trans (by decide)

/-- C8: re-uploading any CSV batch is a no-op — the second upload creates
zero new assignments (the store and the saved flag are those of an upload
that found nothing to add), every row yields exactly one warning, and
every row that parsed to an assignment gets the duplicate-id warning, as
predicted by `specSecondUploadWarnings`. -/
theorem upload_idempotent_dedup (pac : PyDateTime → PyDateTime)
    (m : AssignmentMap) (course : String) (rows : List HwRow) (chan : Nat) :
    (uploadHomeworkSchedule pac
        (uploadHomeworkSchedule pac m course rows chan).2.1 course rows
        chan).2.1 =
      (uploadHomeworkSchedule pac m course rows chan).2.1 ∧
    (uploadHomeworkSchedule pac
        (uploadHomeworkSchedule pac m course rows chan).2.1 course rows
        chan).2.2 = false ∧
    (uploadHomeworkSchedule pac
        (uploadHomeworkSchedule pac m course rows chan).2.1 course rows
        chan).1.success = false ∧
    (uploadHomeworkSchedule pac
        (uploadHomeworkSchedule pac m course rows chan).2.1 course rows
        chan).1.warnings = specSecondUploadWarnings pac course chan 2 rows ∧
    (uploadHomeworkSchedule pac
        (uploadHomeworkSchedule pac m course rows chan).2.1 course rows
        chan).1.warnings.length = rows.length := by
  rcases hrows : processRows pac m course chan 2 rows with ⟨ws, news⟩
  have hkey : ∀ (m₁ : AssignmentMap),
      (∀ k, dictContains m k = true → dictContains m₁ k = true) →
      (∀ a ∈ news, dictContains m₁ a.homework_id = true) →
      uploadHomeworkSchedule pac m₁ course rows chan =
        ({ success := false
           message := "No valid homework assignments found in CSV"
           warnings := specSecondUploadWarnings pac course chan 2 rows },
         m₁, false) := by
    intro m₁ hmono hnews
    have hskip := processRows_all_skip pac course chan rows 2 m m₁ hmono
      (by rw [hrows]; exact hnews)
    unfold uploadHomeworkSchedule
    rw [hskip]
  cases news with
  | nil =>
    have hfirst : uploadHomeworkSchedule pac m course rows chan =
        ({ success := false
           message := "No valid homework assignments found in CSV"
           warnings := ws }, m, false) := by
      unfold uploadHomeworkSchedule
      rw [hrows]
    rw [hfirst]
    have hsecond := hkey m (fun _ h => h) (fun a ha => by cases ha)
    rw [hsecond]
    exact ⟨rfl, rfl, rfl, rfl,
      specSecondUploadWarnings_length pac course chan 2 rows⟩
  | cons a rest =>
    have hfirst : uploadHomeworkSchedule pac m course rows chan =
        ({ success := true
           message := "Successfully uploaded " ++ toString (a :: rest).length ++
             " homework assignments"
           warnings := ws },
         (a :: rest).foldl (fun st x => dictInsert st x.homework_id x) m,
         true) := by
      unfold uploadHomeworkSchedule
      rw [hrows]
    rw [hfirst]
    have hsecond := hkey
      ((a :: rest).foldl (fun st x => dictInsert st x.homework_id x) m)
      (fun k h => foldl_insert_contains_mono (a :: rest) m k h)
      (fun x hx => foldl_insert_contains_mem (a :: rest) m x hx)
    rw [hsecond]
    exact ⟨rfl, rfl, rfl, rfl,
      specSecondUploadWarnings_length pac course chan 2 rows⟩

end HomeworkService

namespace CourseService

/-! ### C9 -/

theorem rosterRowFieldCheck_none_shift (n k : Nat) (r : RosterRow)
    (h : rosterRowFieldCheck n r = none) : rosterRowFieldCheck k r = none := by
  unfold rosterRowFieldCheck at *
  by_cases h1 : pyStrip r.email = "" <;> by_cases h2 : pyStrip r.name = "" <;>
    by_cases h3 : pyStrip r.discord_handle = "" <;>
    by_cases h4 : pyStrip r.course_name = "" <;>
    simp [h1, h2, h3, h4] at h ⊢

theorem loadRosterRows_fails (courses : CourseMap) :
    ∀ (rows : List RosterRow) (n : Nat),
      (∃ r ∈ rows, getCourse courses (pyStrip r.course_name) = none) →
      ∃ e, loadRosterRows courses n rows = .inl e := by
  intro rows
  induction rows with
  | nil =>
    intro n h
    rcases h with ⟨r, hr, _⟩
    cases hr
  | cons r rs ih =>
    intro n hex
    cases hfc : rosterRowFieldCheck n r with
    | some e =>
      exact ⟨e, by simp only [loadRosterRows, hfc]⟩
    | none =>
      by_cases hcourse : (getCourse courses (pyStrip r.course_name)).isNone = true
      · refine ⟨"Row " ++ toString n ++ ": Course '" ++ pyStrip r.course_name ++
          "' not configured. Use `!course add` to create it first.", ?_⟩
        simp only [loadRosterRows, hfc]
        rw [if_pos hcourse]
      · rcases hex with ⟨x, hx, hxnone⟩
        rcases List.mem_cons.mp hx with rfl | hxt
        · exact absurd (by rw [hxnone]; rfl) hcourse
        · rcases ih (n + 1) ⟨x, hxt, hxnone⟩ with ⟨e, he⟩
          refine ⟨e, ?_⟩
          simp only [loadRosterRows, hfc]
          rw [if_neg hcourse, he]

theorem loadRosterRows_first_bad (courses : CourseMap) :
    ∀ (pre : List RosterRow) (n : Nat) (post : List RosterRow) (r : RosterRow),
      (∀ x ∈ pre, rosterRowFieldCheck 0 x = none ∧
        (getCourse courses (pyStrip x.course_name)).isSome = true) →
      rosterRowFieldCheck 0 r = none →
      getCourse courses (pyStrip r.course_name) = none →
      loadRosterRows courses n (pre ++ r :: post) =
        .inl ("Row " ++ toString (n + pre.length) ++ ": Course '" ++
          pyStrip r.course_name ++
          "' not configured. Use `!course add` to create it first.") := by
  intro pre
  induction pre with
  | nil =>
    intro n post r _ hrf hrc
    simp only [List.nil_append, loadRosterRows, List.length_nil,
      Nat.add_zero]
    rw [rosterRowFieldCheck_none_shift 0 n r hrf]
    rw [if_pos (by rw [hrc]; rfl)]
  | cons x pre ih =>
    intro n post r hpre hrf hrc
    have hx := hpre x (List.mem_cons_self x pre)
    have hfc := rosterRowFieldCheck_none_shift 0 n x hx.1
    have hnotNone : ¬((getCourse courses (pyStrip x.course_name)).isNone = true) := by
      rcases Option.isSome_iff_exists.mp hx.2 with ⟨c, hc⟩
      rw [hc]
      simp
    have hih := ih (n + 1) post r
      (fun y hy => hpre y (List.mem_cons_of_mem _ hy)) hrf hrc
    simp only [List.cons_append]
    generalize pre ++ r :: post = L at hih ⊢
    simp only [loadRosterRows, hfc]
    rw [if_neg hnotNone]
    simp only [hih, List.length_cons]
    rw [show n + 1 + pre.length = n + (pre.length + 1) from by omega]

/-- C9: a roster row whose course is not configured makes the whole
upload fail — the load returns `False` with an error message and the
previously loaded in-memory roster is kept unchanged; when every row has
its required fields and all rows before the offending one reference
configured courses, the returned message names exactly the offending row
and its course. -/
theorem roster_unconfigured_course_fails_whole_upload
    (courses : CourseMap) (oldRoster : List StudentRecord) :
    (∀ rows : List RosterRow,
      (∃ r ∈ rows, getCourse courses (pyStrip r.course_name) = none) →
      (loadRosterFromText courses oldRoster rows).1.1 = false ∧
      (loadRosterFromText courses oldRoster rows).2 = oldRoster) ∧
    (∀ (pre post : List RosterRow) (r : RosterRow),
      (∀ x ∈ pre, rosterRowFieldCheck 0 x = none ∧
        (getCourse courses (pyStrip x.course_name)).isSome = true) →
      rosterRowFieldCheck 0 r = none →
      getCourse courses (pyStrip r.course_name) = none →
      loadRosterFromText courses oldRoster (pre ++ r :: post) =
        ((false, "Row " ++ toString (2 + pre.length) ++ ": Course '" ++
          pyStrip r.course_name ++
          "' not configured. Use `!course add` to create it first."),
         oldRoster)) := by
  constructor
  · intro rows hex
    rcases loadRosterRows_fails courses rows 2 hex with ⟨e, he⟩
    unfold loadRosterFromText
    rw [he]
    exact ⟨rfl, rfl⟩
  · intro pre post r hpre hrf hrc
    unfold loadRosterFromText
    rw [loadRosterRows_first_bad courses pre 2 post r hpre hrf hrc]

/-- C9 witness: a two-row roster whose second row references the
unconfigured course "French" fails with the row-3 message, and the
previously loaded roster is untouched. -/
theorem roster_unconfigured_course_fails_whole_upload_witness :
    loadRosterFromText sampleCourses previousRoster
        [goodRosterRow, badRosterRow] =
      ((false,
        "Row 3: Course 'French' not configured. Use `!course add` to create it first."),
       previousRoster) :=
  ((roster_unconfigured_course_fails_whole_upload sampleCourses
      previousRoster).2 [goodRosterRow] [] badRosterRow
    (by decide) (by decide) (by decide)).trans (by decide)

end CourseService

end RefoldBot
